import Mathlib

/-!
Shallow embedding of the AddressSanitizer-style runtime in
src/libafl_frida/src/asan_rt.rs: the shadow allocator (alloc, release,
map_shadow_for_region, unpoison), the C-ABI allocator hooks, and the
AArch64 shadow-check blobs emitted by generate_instrumentation_blobs.

Machine memory is modelled as total functions from addresses (Nat) to byte
values; the RangeSet of mapped shadow pages is modelled as a membership
predicate on shadow byte addresses.  usize arithmetic is Nat, with an
explicit reduction modulo 2 ^ 64 at the points where the Rust code can
wrap (release-mode overflow semantics).
-/

namespace AsanModel

/-- The modulus of usize arithmetic on the 64-bit target. -/
def USIZE : Nat := 2 ^ 64

/-- Model of libc memset over a byte store: writes the value to the
len addresses starting at start. -/
def memset (m : Nat → Nat) (start val len : Nat) : Nat → Nat :=
  fun a => if start ≤ a ∧ a < start + len then val else m a

/-- Shadow writes performed by Allocator::unpoison in asan_rt.rs:
memset of 0xff over size / 8 bytes, then, when size % 8 > 0, one tail
byte holding (0xff << (8 - remainder)) & 0xff. -/
def unpoison_bytes (m : Nat → Nat) (start size : Nat) : Nat → Nat :=
  let m1 := memset m start 0xff (size / 8)
  if size % 8 > 0 then
    memset m1 (start + size / 8) ((0xff <<< (8 - size % 8)) &&& 0xff) 1
  else m1

/-- Shadow writes performed inside Allocator::release in asan_rt.rs:
memset of 0x00 over size / 8 bytes, then, when size % 8 > 0, one more
0x00 byte.  This is the poison operation of the specification. -/
def poison_bytes (m : Nat → Nat) (start size : Nat) : Nat → Nat :=
  let m1 := memset m start 0x00 (size / 8)
  if size % 8 > 0 then
    memset m1 (start + size / 8) 0x00 1
  else m1

/-- First-match association-list lookup, modelling HashMap::get of the
allocation table (HashMap::insert is modelled as cons, so taking the
first match gives the overwrite semantics of insert). -/
def lookupA : List (Nat × Nat) → Nat → Option Nat
  | [], _ => none
  | (k, v) :: rest, p => if p = k then some v else lookupA rest p

/-- The Allocator state of asan_rt.rs.  page_size and shadow_offset are
the struct fields; allocations is the HashMap from user pointer to size;
shadow_pages models the RangeSet of already-mapped shadow addresses as a
membership predicate; shadow_mem models the contents of process shadow
memory that the memsets and fixed mmaps write (not a Rust struct field,
but part of the process state the methods mutate). -/
structure Allocator where
  page_size : Nat
  shadow_offset : Nat
  allocations : List (Nat × Nat)
  shadow_pages : Nat → Bool
  shadow_mem : Nat → Nat

/-- Allocator::new: page size from sysconf (passed in here), shadow
offset 1 << 36, empty allocation table, empty shadow-page set.  Unmapped
shadow memory contents are irrelevant; 0 is used as the arbitrary value. -/
def Allocator.new (page_size : Nat) : Allocator :=
  { page_size := page_size
    shadow_offset := 1 <<< 36
    allocations := []
    shadow_pages := fun _ => false
    shadow_mem := fun _ => 0 }

/-- Allocator::round_up_to_page: ((size + page_size) / page_size) * page_size,
with the addition wrapping as usize does in release mode. -/
def Allocator.round_up_to_page (a : Allocator) (size : Nat) : Nat :=
  (size + a.page_size) % USIZE / a.page_size * a.page_size

/-- Allocator::round_down_to_page: (value / page_size) * page_size. -/
def Allocator.round_down_to_page (a : Allocator) (value : Nat) : Nat :=
  value / a.page_size * a.page_size

/-- Allocator::unpoison method: the two memsets of unpoison_bytes applied
to shadow memory. -/
def Allocator.unpoison (a : Allocator) (start size : Nat) : Allocator :=
  { a with shadow_mem := unpoison_bytes a.shadow_mem start size }

/-- Allocator::map_shadow_for_region.  Computes the shadow address of
start, rounds down to a page, computes the end of the covering shadow
page range, then for every gap of the shadow-page set inside that range
performs a MAP_FIXED anonymous mmap (fresh anonymous pages read as zero,
so the gap addresses are zero-filled), inserts the whole range into the
set, and optionally unpoisons the shadow for the region.  Returns the
shadow mapping start and size exactly as the Rust function does. -/
def Allocator.map_shadow_for_region (a : Allocator) (start finish : Nat)
    (unpoison : Bool) : Allocator × Nat × Nat :=
  let shadow_mapping_start := (start >>> 3) + a.shadow_offset
  let shadow_start := a.round_down_to_page shadow_mapping_start
  let shadow_end := a.round_up_to_page ((finish - start) / 8) + a.page_size + shadow_start
  let mem1 : Nat → Nat := fun x =>
    if shadow_start ≤ x ∧ x < shadow_end ∧ a.shadow_pages x = false then 0
    else a.shadow_mem x
  let pages1 : Nat → Bool := fun x =>
    a.shadow_pages x || (decide (shadow_start ≤ x) && decide (x < shadow_end))
  let a1 : Allocator := { a with shadow_mem := mem1, shadow_pages := pages1 }
  let a2 := if unpoison then a1.unpoison shadow_mapping_start (finish - start) else a1
  (a2, shadow_mapping_start, (finish - start) / 8)

/-- The set of shadow byte addresses that the gap loop of
map_shadow_for_region maps with MAP_FIXED when invoked on the given
state and region: addresses of the covering shadow range not already in
the shadow-page set. -/
def Allocator.msfr_gap (a : Allocator) (start finish : Nat) : Nat → Bool :=
  let shadow_mapping_start := (start >>> 3) + a.shadow_offset
  let shadow_start := a.round_down_to_page shadow_mapping_start
  let shadow_end := a.round_up_to_page ((finish - start) / 8) + a.page_size + shadow_start
  fun x => decide (shadow_start ≤ x) && decide (x < shadow_end) && !a.shadow_pages x

/-- Allocator::alloc.  The kernel mmap result is passed as an oracle:
none models a failing mmap (alloc prints and returns null), some mapping
models success returning that base address.  On success the function
maps shadow for the whole reservation without unpoisoning, unpoisons the
shadow of the user region of size bytes starting one page in, records
the allocation, and returns mapping + page_size. -/
def Allocator.alloc (a : Allocator) (size : Nat) (_alignment : Nat)
    (mmap_result : Option Nat) : Allocator × Nat :=
  let rounded_up_size := a.round_up_to_page size
  match mmap_result with
  | none => (a, 0)
  | some mapping =>
    let r := a.map_shadow_for_region mapping
      (mapping + rounded_up_size + 2 * a.page_size) false
    let a1 := r.1
    let shadow_mapping_start := r.2.1
    let a2 := a1.unpoison (shadow_mapping_start + a.page_size / 8) size
    let a3 : Allocator :=
      { a2 with allocations := (mapping + a.page_size, size) :: a2.allocations }
    (a3, mapping + a.page_size)

/-- The length argument of the mmap call inside Allocator::alloc:
rounded_up_size + 2 * page_size, as usize arithmetic. -/
def Allocator.alloc_reservation_len (a : Allocator) (size : Nat) : Nat :=
  (a.round_up_to_page size + 2 * a.page_size) % USIZE

/-- Allocator::release.  Looks the pointer up in the allocation table;
if absent returns the state unchanged; otherwise poisons size / 8 shadow
bytes at (ptr >> 3) + shadow_offset plus one tail byte when size % 8 > 0.
The table entry is not touched and no memory is unmapped. -/
def Allocator.release (a : Allocator) (ptr : Nat) : Allocator :=
  match lookupA a.allocations ptr with
  | none => a
  | some size =>
    let shadow_mapping_start := (ptr >>> 3) + a.shadow_offset
    { a with shadow_mem := poison_bytes a.shadow_mem shadow_mapping_start size }

/-- Allocator::get_usable_size is a direct table lookup; the Rust code
unwraps, so a missing key is a panic, modelled as none. -/
def Allocator.get_usable_size (a : Allocator) (ptr : Nat) : Option Nat :=
  lookupA a.allocations ptr

/-- Hook for malloc: alloc(size, 0x8). -/
def asan_malloc (a : Allocator) (size : Nat) (mmap_result : Option Nat) :
    Allocator × Nat :=
  a.alloc size 0x8 mmap_result

/-- Hook for calloc: alloc(size * nmemb, 0x8) with the product computed
in usize arithmetic, wrapping modulo 2 ^ 64 without an overflow check. -/
def asan_calloc (a : Allocator) (nmemb size : Nat) (mmap_result : Option Nat) :
    Allocator × Nat :=
  a.alloc (size * nmemb % USIZE) 0x8 mmap_result

/-- Hook for free: release(ptr) when ptr is non-null, otherwise nothing. -/
def asan_free (a : Allocator) (ptr : Nat) : Allocator :=
  if ptr ≠ 0 then a.release ptr else a

/-- Hook for realloc.  Calls alloc(size, 0x8); when ptr is non-null,
memmoves get_usable_size(ptr) bytes from ptr to the new pointer (the
unwrap inside get_usable_size panics when ptr is not in the table,
modelled as none); then releases ptr and returns the new pointer.  The
result carries the final state, the returned pointer, and the number of
bytes the memmove copied (0 when ptr is null). -/
def asan_realloc (a : Allocator) (ptr size : Nat) (mmap_result : Option Nat) :
    Option (Allocator × Nat × Nat) :=
  let r := a.alloc size 0x8 mmap_result
  let a1 := r.1
  let ret := r.2
  if ptr ≠ 0 then
    match a1.get_usable_size ptr with
    | none => none
    | some usable => some (a1.release ptr, ret, usable)
  else
    some (a1.release ptr, ret, 0)

/-- The fixed shadow offset of the runtime: 1 << 36, both the
Allocator::new field value and the constant materialized by the first
two instructions of every check blob. -/
def SHADOW_OFFSET : Nat := 1 <<< 36

/-- Reversal of the low n bits of a value: bit i of the input becomes
bit n - 1 - i of the result.  bitrev 32 is the semantics of the AArch64
rbit instruction on a 32-bit register. -/
def bitrev : Nat → Nat → Nat
  | 0, _ => 0
  | n + 1, w => w % 2 * 2 ^ n + bitrev n (w / 2)

/-- Semantics of the AArch64 rev16 instruction on a 32-bit register:
bytes b0,b1,b2,b3 (little-endian order) become b1,b0,b3,b2. -/
def rev16 (w : Nat) : Nat :=
  w / 2 ^ 8 % 2 ^ 8 + w % 2 ^ 8 * 2 ^ 8 + w / 2 ^ 24 % 2 ^ 8 * 2 ^ 16 +
    w / 2 ^ 16 % 2 ^ 8 * 2 ^ 24

/-- Semantics of the shadow_check! blob of
AsanRuntime::generate_instrumentation_blobs, executed with the access
address in x0 over shadow memory m:
mov x1, #1; add x1, xzr, x1, lsl #36; add x1, x1, x0, lsr #3;
ldrh w1, [x1]; and x0, x0, #7; rev16 w1, w1; rbit w1, w1;
lsr x1, x1, #16; lsr x1, x1, x0; tbnz x1, #bit, done; brk #bit.
Returns none when the blob falls through and some imm when it executes
brk #imm. -/
def shadow_check (m : Nat → Nat) (addr bit : Nat) : Option Nat :=
  let x1 := 1 <<< 36 + (addr >>> 3)
  let w1 := m x1 % 2 ^ 8 + m (x1 + 1) % 2 ^ 8 * 2 ^ 8
  let x0 := addr &&& 7
  let res := bitrev 32 (rev16 w1) >>> 16 >>> x0
  if res.testBit bit then none else some bit

/-- The blob checking a 1-byte access (bit 0, trap immediate 0). -/
def blob_check_mem_byte (m : Nat → Nat) (addr : Nat) : Option Nat :=
  shadow_check m addr 0

/-- The blob checking a 2-byte access (bit 1, trap immediate 1). -/
def blob_check_mem_halfword (m : Nat → Nat) (addr : Nat) : Option Nat :=
  shadow_check m addr 1

/-- The blob checking a 4-byte access (bit 2, trap immediate 2). -/
def blob_check_mem_dword (m : Nat → Nat) (addr : Nat) : Option Nat :=
  shadow_check m addr 2

/-- The blob checking an 8-byte access (bit 3, trap immediate 3). -/
def blob_check_mem_qword (m : Nat → Nat) (addr : Nat) : Option Nat :=
  shadow_check m addr 3

/-- The blob checking a 16-byte access (bit 4, trap immediate 4). -/
def blob_check_mem_16bytes (m : Nat → Nat) (addr : Nat) : Option Nat :=
  shadow_check m addr 4

/-- Shadow encoding of section 3 of the specification: the application
byte at address A is addressable iff bit 7 - (A % 8) of the shadow byte
at (A >> 3) + SHADOW_OFFSET is set (MSB-first packing). -/
def byte_addressable (m : Nat → Nat) (A : Nat) : Bool :=
  (m ((A >>> 3) + SHADOW_OFFSET) % 2 ^ 8).testBit (7 - A % 8)

/-- The shadow-correctness predicate of the specification for the byte
range [addr, addr + w): every byte in the range is addressable. -/
def range_valid (m : Nat → Nat) (addr w : Nat) : Bool :=
  (List.range w).all fun i => byte_addressable m (addr + i)

/-- Modelled from the spec: the least multiple of the page size that is
greater than or equal to size, the rounding function claim C4 ascribes
to the allocator. -/
def spec_round_up_page (page size : Nat) : Nat :=
  (size + page - 1) / page * page

/-! Pointwise characterizations of the shadow write primitives. -/

/-- Pointwise reading of memset. -/
theorem memset_apply (m : Nat → Nat) (st v l x : Nat) :
    memset m st v l x = if st ≤ x ∧ x < st + l then v else m x := rfl

/-- Value of a shadow byte after the two memsets of unpoison: the tail
byte holds the partial-granule encoding, the size / 8 leading bytes hold
0xff, and every other byte is unchanged. -/
theorem unpoison_bytes_apply (m : Nat → Nat) (s n x : Nat) :
    unpoison_bytes m s n x =
      if n % 8 > 0 ∧ x = s + n / 8 then 0xff <<< (8 - n % 8) &&& 0xff
      else if s ≤ x ∧ x < s + n / 8 then 0xff
      else m x := by
  simp only [unpoison_bytes, ite_apply, memset_apply]
  split_ifs <;> first | rfl | (exfalso; omega)

/-- Value of a shadow byte after the two memsets of the poisoning in
release: every covered byte (including the tail byte) is 0x00. -/
theorem poison_bytes_apply (m : Nat → Nat) (s n x : Nat) :
    poison_bytes m s n x =
      if n % 8 > 0 ∧ x = s + n / 8 then 0
      else if s ≤ x ∧ x < s + n / 8 then 0
      else m x := by
  simp only [poison_bytes, ite_apply, memset_apply]
  split_ifs <;> first | rfl | (exfalso; omega)

/-- unpoison reads its base store only at the queried address, so
pointwise-equal bases give pointwise-equal results. -/
theorem unpoison_bytes_congr (m m' : Nat → Nat) (s n : Nat)
    (h : ∀ y, m y = m' y) (x : Nat) :
    unpoison_bytes m s n x = unpoison_bytes m' s n x := by
  simp only [unpoison_bytes, ite_apply, memset_apply]
  split_ifs <;> first | rfl | exact h x

/-- unpoison writes fixed values over a fixed range, so applying it
twice equals applying it once. -/
theorem unpoison_bytes_idem (m : Nat → Nat) (s n x : Nat) :
    unpoison_bytes (unpoison_bytes m s n) s n x = unpoison_bytes m s n x := by
  rw [unpoison_bytes_apply, unpoison_bytes_apply (m := m)]
  split_ifs <;> rfl

/-- Core of claim C7, shadow contents: running the gap-fill and
unpoison of map_shadow_for_region a second time over a state whose
shadow-page set already covers the whole range reproduces the shadow
contents of the first run. -/
theorem map_twice_mem (cov : Nat → Bool) (mem : Nat → Nat)
    (ss se sms n x : Nat) :
    unpoison_bytes (fun y =>
        if ss ≤ y ∧ y < se ∧
            (cov y || (decide (ss ≤ y) && decide (y < se))) = false then 0
        else unpoison_bytes
          (fun z => if ss ≤ z ∧ z < se ∧ cov z = false then 0 else mem z)
          sms n y)
      sms n x
    = unpoison_bytes
        (fun z => if ss ≤ z ∧ z < se ∧ cov z = false then 0 else mem z)
        sms n x := by
  have hpre : ∀ y,
      (if ss ≤ y ∧ y < se ∧
          (cov y || (decide (ss ≤ y) && decide (y < se))) = false then 0
       else unpoison_bytes
         (fun z => if ss ≤ z ∧ z < se ∧ cov z = false then 0 else mem z)
         sms n y)
      = unpoison_bytes
          (fun z => if ss ≤ z ∧ z < se ∧ cov z = false then 0 else mem z)
          sms n y := by
    intro y
    rcases Classical.em (ss ≤ y ∧ y < se) with h | h
    · rw [if_neg]
      rintro ⟨h1, h2, h3⟩
      simp [h.1, h.2] at h3
    · rw [if_neg]
      rintro ⟨h1, h2, _⟩
      exact h ⟨h1, h2⟩
  calc unpoison_bytes _ sms n x
      = unpoison_bytes
          (unpoison_bytes
            (fun z => if ss ≤ z ∧ z < se ∧ cov z = false then 0 else mem z)
            sms n)
          sms n x := unpoison_bytes_congr _ _ _ _ hpre x
    _ = _ := unpoison_bytes_idem _ _ _ _

/-- Core of claim C7, shadow-page set: re-inserting the same range
leaves the membership predicate unchanged. -/
theorem map_twice_pages (cov : Nat → Bool) (ss se x : Nat) :
    ((cov x || (decide (ss ≤ x) && decide (x < se))) ||
        (decide (ss ≤ x) && decide (x < se)))
      = (cov x || (decide (ss ≤ x) && decide (x < se))) := by
  cases cov x <;> cases decide (ss ≤ x) <;> cases decide (x < se) <;> rfl

/-- Core of claim C7, gap loop: after the covering range is inserted in
the shadow-page set, the gap set of the same range is empty, so the
second call performs no MAP_FIXED mmap at all. -/
theorem gap_after_insert (cov : Nat → Bool) (ss se x : Nat) :
    (decide (ss ≤ x) && decide (x < se) &&
        !(cov x || (decide (ss ≤ x) && decide (x < se)))) = false := by
  cases cov x <;> cases decide (ss ≤ x) <;> cases decide (x < se) <;> rfl

/-! Claim theorems. -/

/-- Claim C2, counterexample: p = 8192 is a live key of the allocation
table (inserted by alloc(8, 8) with the reservation mapped at 4096), yet
after release(p) the table still contains the entry for p — release
never removes table entries, contradicting the claim that the entry is
gone. -/
theorem c2_counterexample :
    lookupA (((Allocator.new 4096).alloc 8 8 (some 4096)).1).allocations 8192
        = some 8 ∧
      lookupA ((((Allocator.new 4096).alloc 8 8 (some 4096)).1.release 8192)).allocations 8192
        = some 8 := by
  constructor <;> rfl

/-- Claim C2 as amended: for every live key p of the allocation table,
release(p) leaves the allocation table unchanged — in particular the
entry for p is still present — and nothing is unmapped (release only
writes shadow bytes). -/
theorem c2_release_keeps_table_entry (a : Allocator) (p sz : Nat)
    (h : lookupA a.allocations p = some sz) :
    lookupA ((a.release p).allocations) p = some sz ∧
      (a.release p).allocations = a.allocations := by
  unfold Allocator.release
  rw [h]
  exact ⟨h, rfl⟩

/-- Witness for c2_release_keeps_table_entry at a concrete live
allocation. -/
theorem c2_release_keeps_table_entry_witness :
    lookupA ((((Allocator.new 4096).alloc 8 8 (some 4096)).1.release 8192)).allocations 8192
        = some 8 ∧
      ((((Allocator.new 4096).alloc 8 8 (some 4096)).1.release 8192)).allocations
        = (((Allocator.new 4096).alloc 8 8 (some 4096)).1).allocations :=
  c2_release_keeps_table_entry ((Allocator.new 4096).alloc 8 8 (some 4096)).1 8192 8 rfl

/-- State with one live allocation of usable size 16 at user pointer
8192, as produced by malloc(16) with the reservation mapped at 4096. -/
def c3_state : Allocator := ((Allocator.new 4096).alloc 16 8 (some 4096)).1

/-- Claim C3, failing input: realloc(p, 8) on a live p with
usable_size(p) = 16 memmoves 16 bytes — the full old usable size — and
not min(8, 16) = 8 bytes as the claim states. -/
theorem c3_realloc_failing_input :
    Option.map (fun t => t.2.2) (asan_realloc c3_state 8192 8 (some 40960))
        = some 16 ∧
      ¬ Option.map (fun t => t.2.2) (asan_realloc c3_state 8192 8 (some 40960))
        = some (min 8 16) := by
  constructor <;> decide

/-- Supporting lemma for claim C3: for every live non-null pointer p,
asan_realloc(p, n) copies exactly usable_size(p) bytes (not the minimum
with n) and returns the fresh pointer mapping + page_size. -/
theorem asan_realloc_copies_usable_size (a : Allocator) (p n M us : Nat)
    (hp : p ≠ 0) (hlive : lookupA a.allocations p = some us)
    (hM : M + a.page_size ≠ p) :
    Option.map (fun t => t.2) (asan_realloc a p n (some M))
      = some (M + a.page_size, us) := by
  have hlive1 : lookupA ((M + a.page_size, n) ::
      (a.map_shadow_for_region M (M + a.round_up_to_page n + 2 * a.page_size)
        false).1.allocations) p = some us := by
    show lookupA ((M + a.page_size, n) :: a.allocations) p = some us
    unfold lookupA
    rw [if_neg (fun hpe => hM hpe.symm)]
    exact hlive
  unfold asan_realloc Allocator.alloc Allocator.get_usable_size
  rw [if_pos hp]
  simp only [Allocator.unpoison]
  rw [hlive1]
  rfl

/-- Claim C4, counterexample: with the standard 4096-byte page, the mmap
length requested by alloc(4096, _) is 16384 = 8192 + 2·4096, not the
12288 = 4096 + 2·4096 the claim computes from the least-multiple
rounding — round_up_to_page adds a full page to sizes that are already
page multiples. -/
theorem c4_counterexample :
    ¬ ((Allocator.new 4096).alloc_reservation_len 4096 =
        spec_round_up_page 4096 4096 + 2 * 4096) := by
  decide

/-- Claim C4 as amended: the reservation length is always
(size / page + 1) · page + 2 · page, i.e. the next page multiple
strictly above size / page pages; for size already a multiple of the
page size this is size + 3·page, one page more than the claim states. -/
theorem c4_reservation_length (a : Allocator) (size : Nat)
    (hp : 0 < a.page_size) (hs : size + 3 * a.page_size < USIZE) :
    a.alloc_reservation_len size =
      (size / a.page_size + 1) * a.page_size + 2 * a.page_size := by
  have h1 : size + a.page_size < USIZE := by omega
  have h2 : (size + a.page_size) % USIZE = size + a.page_size :=
    Nat.mod_eq_of_lt h1
  unfold Allocator.alloc_reservation_len Allocator.round_up_to_page
  rw [h2, Nat.add_div_right _ hp]
  have h3 : size / a.page_size * a.page_size ≤ size := Nat.div_mul_le_self _ _
  have h5 : (size / a.page_size + 1) * a.page_size
      = size / a.page_size * a.page_size + a.page_size := by ring
  have h4 : (size / a.page_size + 1) * a.page_size + 2 * a.page_size < USIZE := by
    omega
  exact Nat.mod_eq_of_lt h4

/-- Witness for c4_reservation_length at page size 4096 and size 5. -/
theorem c4_reservation_length_witness :
    (Allocator.new 4096).alloc_reservation_len 5 =
      (5 / (Allocator.new 4096).page_size + 1) * (Allocator.new 4096).page_size +
        2 * (Allocator.new 4096).page_size :=
  c4_reservation_length (Allocator.new 4096) 5 (by decide) (by decide)

/-- Claim C6, counterexample: with n = 8 there is no partial-granule
tail, so the claim requires every byte back to its prior value; yet the
full granule byte at the start, previously 0xff, is 0 after
unpoison(0, 8) followed by poison(0, 8). -/
theorem c6_counterexample :
    poison_bytes (unpoison_bytes (fun _ => 0xff) 0 8) 0 8 0 = 0 ∧
      ¬ poison_bytes (unpoison_bytes (fun _ => 0xff) 0 8) 0 8 0 = 0xff := by
  constructor <;> decide

/-- Claim C6 as amended: unpoison(s, n) followed by poison(s, n) zeroes
every covered shadow byte — the n / 8 leading bytes and, when n % 8 ≠ 0,
the tail byte — regardless of their prior values, and leaves every byte
outside the covered range equal to its value before the unpoison. -/
theorem c6_unpoison_poison_roundtrip (m : Nat → Nat) (s n x : Nat) :
    poison_bytes (unpoison_bytes m s n) s n x =
      if s ≤ x ∧ x < s + n / 8 + (if n % 8 > 0 then 1 else 0) then 0
      else m x := by
  rw [poison_bytes_apply, unpoison_bytes_apply]
  split_ifs <;> first | rfl | (exfalso; omega)

/-- Claim C7: map_shadow_for_region(start, finish, true) run twice on
the same range leaves the shadow contents and the shadow-page set
identical to a single run, and the gap set of the second run is empty,
so the second run performs no MAP_FIXED mapping over pages already in
the shadow-page set. -/
theorem c7_map_shadow_idempotent (a : Allocator) (s e : Nat) :
    (∀ x, (((a.map_shadow_for_region s e true).1.map_shadow_for_region s e true).1.shadow_mem x
        = (a.map_shadow_for_region s e true).1.shadow_mem x)) ∧
    (∀ x, (((a.map_shadow_for_region s e true).1.map_shadow_for_region s e true).1.shadow_pages x
        = (a.map_shadow_for_region s e true).1.shadow_pages x)) ∧
    (∀ x, (a.map_shadow_for_region s e true).1.msfr_gap s e x = false) := by
  refine ⟨fun x => ?_, fun x => ?_, fun x => ?_⟩
  · exact map_twice_mem a.shadow_pages a.shadow_mem
      (a.round_down_to_page ((s >>> 3) + a.shadow_offset))
      (a.round_up_to_page ((e - s) / 8) + a.page_size +
        a.round_down_to_page ((s >>> 3) + a.shadow_offset))
      ((s >>> 3) + a.shadow_offset) (e - s) x
  · exact map_twice_pages a.shadow_pages
      (a.round_down_to_page ((s >>> 3) + a.shadow_offset))
      (a.round_up_to_page ((e - s) / 8) + a.page_size +
        a.round_down_to_page ((s >>> 3) + a.shadow_offset)) x
  · exact gap_after_insert a.shadow_pages
      (a.round_down_to_page ((s >>> 3) + a.shadow_offset))
      (a.round_up_to_page ((e - s) / 8) + a.page_size +
        a.round_down_to_page ((s >>> 3) + a.shadow_offset)) x

/-- Claim C8: release on a pointer absent from the allocation table
returns the state completely unchanged, and asan_free(NULL) performs no
state change either. -/
theorem c8_release_unknown_noop (a : Allocator) (p : Nat)
    (h : lookupA a.allocations p = none) :
    a.release p = a ∧ asan_free a 0 = a := by
  constructor
  · unfold Allocator.release
    rw [h]
  · rfl

/-- Witness for c8_release_unknown_noop on a fresh allocator and an
unknown pointer. -/
theorem c8_release_unknown_noop_witness :
    (Allocator.new 4096).release 5 = Allocator.new 4096 ∧
      asan_free (Allocator.new 4096) 0 = Allocator.new 4096 :=
  c8_release_unknown_noop (Allocator.new 4096) 5 rfl

/-- Claim C10: calloc computes size * nmemb in wrapping usize
arithmetic; whenever the mathematical product is at least 2 ^ 64, the
allocation is recorded with the wrapped size, which is strictly smaller
than the mathematical product. -/
theorem c10_calloc_wraps (a : Allocator) (nmemb size M : Nat)
    (h : USIZE ≤ size * nmemb) :
    lookupA (asan_calloc a nmemb size (some M)).1.allocations (M + a.page_size)
        = some (size * nmemb % USIZE) ∧
      size * nmemb % USIZE < size * nmemb := by
  constructor
  · simp [asan_calloc, Allocator.alloc, lookupA]
  · calc size * nmemb % USIZE < USIZE :=
        Nat.mod_lt _ (pow_pos (by norm_num) 64)
      _ ≤ size * nmemb := h

/-- Witness for c10_calloc_wraps: calloc(2 ^ 32, 2 ^ 32 + 1) records the
wrapped size 2 ^ 32 instead of the mathematical product 2 ^ 64 + 2 ^ 32. -/
theorem c10_calloc_wraps_witness :
    lookupA (asan_calloc (Allocator.new 4096) (2 ^ 32) (2 ^ 32 + 1) (some 4096)).1.allocations
        (4096 + (Allocator.new 4096).page_size)
        = some ((2 ^ 32 + 1) * 2 ^ 32 % USIZE) ∧
      (2 ^ 32 + 1) * 2 ^ 32 % USIZE < (2 ^ 32 + 1) * 2 ^ 32 :=
  c10_calloc_wraps (Allocator.new 4096) (2 ^ 32) (2 ^ 32 + 1) 4096
    (by norm_num [USIZE])

/-! Bit-level lemmas for the check-blob analysis. -/

/-- bitrev n produces a value below 2 ^ n. -/
theorem bitrev_lt (n : Nat) : ∀ w, bitrev n w < 2 ^ n := by
  induction n with
  | zero => intro w; simp [bitrev]
  | succ k ih =>
    intro w
    have h2 := ih (w / 2)
    have h3 : w % 2 = 0 ∨ w % 2 = 1 := by omega
    have hpw : 2 ^ (k + 1) = 2 ^ k + 2 ^ k := by rw [pow_succ]; omega
    rcases h3 with h | h <;> simp [bitrev, h] <;> omega

/-- Bits of c * 2 ^ n + r below position n read r. -/
theorem testBit_mul_pow_add_low (c r n i : Nat) (hi : i < n) :
    (c * 2 ^ n + r).testBit i = r.testBit i := by
  rw [Nat.testBit_to_div_mod, Nat.testBit_to_div_mod]
  have h1 : c * 2 ^ n + r = r + 2 ^ i * (c * 2 ^ (n - i - 1) * 2) := by
    have h2 : 2 ^ i * (2 ^ (n - i - 1) * 2) = 2 ^ n := by
      rw [← pow_succ, ← pow_add]
      congr 1
      omega
    calc c * 2 ^ n + r = r + c * (2 ^ i * (2 ^ (n - i - 1) * 2)) := by rw [h2]; ring
      _ = r + 2 ^ i * (c * 2 ^ (n - i - 1) * 2) := by ring
  rw [h1, Nat.add_mul_div_left _ _ (by positivity : (0:ℕ) < 2 ^ i),
    Nat.add_mul_mod_self_right]

/-- Bit n of c * 2 ^ n + r with r < 2 ^ n reads bit 0 of c. -/
theorem testBit_mul_pow_add_high (c r n : Nat) (hr : r < 2 ^ n) :
    (c * 2 ^ n + r).testBit n = c.testBit 0 := by
  rw [Nat.testBit_to_div_mod, Nat.testBit_to_div_mod]
  rw [add_comm, mul_comm c (2 ^ n),
    Nat.add_mul_div_left _ _ (by positivity : (0:ℕ) < 2 ^ n),
    Nat.div_eq_of_lt hr, zero_add]
  simp

/-- bitrev n reverses the low n bits: bit i of the result is bit
n - 1 - i of the input. -/
theorem testBit_bitrev (n : Nat) :
    ∀ w i, i < n → (bitrev n w).testBit i = w.testBit (n - 1 - i) := by
  induction n with
  | zero => intro w i hi; omega
  | succ k ih =>
    intro w i hi
    rw [show bitrev (k + 1) w = w % 2 * 2 ^ k + bitrev k (w / 2) from rfl]
    rcases Nat.lt_or_ge i k with h | h
    · rw [testBit_mul_pow_add_low _ _ _ _ h, ih (w / 2) i h]
      have hix : k + 1 - 1 - i = (k - 1 - i) + 1 := by omega
      rw [hix, Nat.testBit_succ]
    · have h2 : i = k := by omega
      rw [h2]
      rw [testBit_mul_pow_add_high _ _ _ (bitrev_lt k (w / 2))]
      have hix : k + 1 - 1 - k = 0 := by omega
      rw [hix, Nat.testBit_to_div_mod, Nat.testBit_to_div_mod]
      simp only [pow_zero, Nat.div_one]
      exact decide_eq_decide.mpr (by omega)

/-- rev16 on a 16-bit value swaps the two bytes. -/
theorem rev16_bytes (s0 s1 : Nat) (h0 : s0 < 2 ^ 8) (h1 : s1 < 2 ^ 8) :
    rev16 (s0 + s1 * 2 ^ 8) = s1 + s0 * 2 ^ 8 := by
  unfold rev16
  omega

/-- Low bits of a two-byte little-endian value read the low byte. -/
theorem testBit_two_bytes_low (lo hi t : Nat) (ht : t < 8) :
    (lo + hi * 2 ^ 8).testBit t = lo.testBit t := by
  rw [add_comm]
  exact testBit_mul_pow_add_low hi lo 8 t ht

/-- High bits of a two-byte little-endian value read the high byte. -/
theorem testBit_two_bytes_high (lo hi t : Nat) (hlo : lo < 2 ^ 8) (ht : 8 ≤ t) :
    (lo + hi * 2 ^ 8).testBit t = hi.testBit (t - 8) := by
  rw [Nat.testBit_to_div_mod, Nat.testBit_to_div_mod]
  have h2 : 2 ^ t = 2 ^ 8 * 2 ^ (t - 8) := by
    rw [← pow_add]
    congr 1
    omega
  rw [h2, ← Nat.div_div_eq_div_mul, mul_comm hi,
    Nat.add_mul_div_left _ _ (by positivity : (0:ℕ) < 2 ^ 8),
    Nat.div_eq_of_lt hlo, zero_add]

/-- After the mov/add/ldrh/rev16/rbit/lsr-16 sequence of the blob, bit j
of the resulting value reads, MSB-first, byte s0 for j below 8 and byte
s1 for j in 8..15. -/
theorem blob_res_testBit (s0 s1 j : Nat) (h0 : s0 < 2 ^ 8) (h1 : s1 < 2 ^ 8)
    (hj : j < 16) :
    (bitrev 32 (rev16 (s0 + s1 * 2 ^ 8)) >>> 16).testBit j
      = if j < 8 then s0.testBit (7 - j) else s1.testBit (15 - j) := by
  rw [rev16_bytes s0 s1 h0 h1, Nat.testBit_shiftRight, testBit_bitrev 32 _ _ (by omega)]
  have hix : 32 - 1 - (16 + j) = 15 - j := by omega
  rw [hix]
  rcases Nat.lt_or_ge j 8 with h | h
  · rw [if_pos h, testBit_two_bytes_high s1 s0 (15 - j) h1 (by omega)]
    congr 1
    omega
  · rw [if_neg (by omega), testBit_two_bytes_low s1 s0 (15 - j) (by omega)]

/-- The and x0, x0, 7 instruction computes the bit offset addr mod 8. -/
theorem and_seven (a : Nat) : a &&& 7 = a % 8 := by
  have h := Nat.and_pow_two_sub_one_eq_mod a 3
  norm_num at h
  exact h

/-- Claim C1 as amended: the check blob for width w with the access
address in x0 traps, with immediate log2 w, iff the single byte at
addr + log2 w is unaddressable in the shadow encoding; it does not
examine the other bytes of the access range. -/
theorem c1_blob_tests_single_byte (m : Nat → Nat) (addr b : Nat) (hb : b ≤ 4) :
    shadow_check m addr b =
      if byte_addressable m (addr + b) then none else some b := by
  simp only [shadow_check, byte_addressable, SHADOW_OFFSET]
  rw [and_seven]
  have h8 : addr % 8 < 8 := Nat.mod_lt _ (by norm_num)
  rw [Nat.testBit_shiftRight]
  have hkey := blob_res_testBit (m (1 <<< 36 + (addr >>> 3)) % 2 ^ 8)
    (m (1 <<< 36 + (addr >>> 3) + 1) % 2 ^ 8) (addr % 8 + b)
    (Nat.mod_lt _ (by norm_num)) (Nat.mod_lt _ (by norm_num)) (by omega)
  rw [hkey]
  have hdiv : ∀ y : Nat, y >>> 3 = y / 8 := by
    intro y
    rw [Nat.shiftRight_eq_div_pow]
  rcases Nat.lt_or_ge (addr % 8 + b) 8 with h | h
  · rw [if_pos h]
    have ha : (addr + b) >>> 3 = addr >>> 3 := by
      rw [hdiv, hdiv]
      omega
    have hmod : (addr + b) % 8 = addr % 8 + b := by omega
    have hcomm : addr >>> 3 + 1 <<< 36 = 1 <<< 36 + addr >>> 3 :=
      Nat.add_comm _ _
    simp only [ha, hmod, hcomm]
  · rw [if_neg (show ¬ (addr % 8 + b < 8) by omega)]
    have ha : (addr + b) >>> 3 = addr >>> 3 + 1 := by
      rw [hdiv, hdiv]
      omega
    have hmod : (addr + b) % 8 = addr % 8 + b - 8 := by omega
    have hix : 15 - (addr % 8 + b) = 7 - (addr % 8 + b - 8) := by omega
    have hcomm : addr >>> 3 + 1 + 1 <<< 36 = 1 <<< 36 + addr >>> 3 + 1 := by
      rw [Nat.add_comm _ (1 <<< 36), ← Nat.add_assoc]
    simp only [ha, hmod, hix, hcomm]

/-- Shadow state for the claim C1 counterexample: the granule at
application address 0 has its first three bytes addressable (0xe0),
everything else is poisoned. -/
def c1_shadow : Nat → Nat := fun x => if x = 1 <<< 36 then 0xe0 else 0

/-- Claim C1, counterexample: a 4-byte access at address 0 over
c1_shadow violates the shadow-correctness predicate (byte 3 is
unaddressable), yet the width-4 check blob falls through without
trapping, because it only tests byte 0 + log2 4 = 2. -/
theorem c1_counterexample :
    range_valid c1_shadow 0 4 = false ∧
      blob_check_mem_dword c1_shadow 0 = none := by
  constructor <;> decide

/-- Witness for c1_blob_tests_single_byte at addr 3, width 4. -/
theorem c1_blob_tests_single_byte_witness :
    shadow_check c1_shadow 3 2 =
      if byte_addressable c1_shadow (3 + 2) then none else some 2 :=
  c1_blob_tests_single_byte c1_shadow 3 2 (by decide)

/-! Shadow layout established by alloc. -/

/-- USIZE as a numeral. -/
theorem usize_eq : USIZE = 18446744073709551616 := by norm_num [USIZE]

/-- Shifting right by 3 is division by 8. -/
theorem shiftRight3_div (n : Nat) : n >>> 3 = n / 8 := by
  rw [Nat.shiftRight_eq_div_pow]

/-- The shadow offset as a numeral. -/
theorem shiftLeft36_num : (1 : Nat) <<< 36 = 68719476736 := rfl

/-- The shadow memory produced by a successful alloc, read pointwise:
unpoison of the user region applied over the gap-zero-filled covering
range of the reservation. -/
theorem alloc_shadow_mem_some (a : Allocator) (size al M y : Nat) :
    (a.alloc size al (some M)).1.shadow_mem y
      = unpoison_bytes
          (fun x =>
            if a.round_down_to_page ((M >>> 3) + a.shadow_offset) ≤ x ∧
                x < a.round_up_to_page
                      ((M + a.round_up_to_page size + 2 * a.page_size - M) / 8)
                    + a.page_size
                    + a.round_down_to_page ((M >>> 3) + a.shadow_offset) ∧
                a.shadow_pages x = false
            then 0 else a.shadow_mem x)
          ((M >>> 3) + a.shadow_offset + a.page_size / 8) size y := rfl

/-- The pointer returned by a successful alloc. -/
theorem alloc_ret_some (a : Allocator) (size al M : Nat) :
    (a.alloc size al (some M)).2 = M + a.page_size := rfl

/-- Bits of the partial-granule tail byte: MSB-first, exactly the first
r positions are set. -/
theorem tail_testBit : ∀ r, r < 8 → ∀ j, j < 8 →
    ((255 <<< (8 - r) &&& 255) % 2 ^ 8).testBit (7 - j) = decide (j < r) := by
  decide

/-- Every MSB-first bit of a 0xff shadow byte is set. -/
theorem byte255_testBit : ∀ k, k < 8 →
    ((255 : Nat) % 2 ^ 8).testBit k = true := by
  decide

/-- No bit of a 0x00 shadow byte is set. -/
theorem byte0_testBit (k : Nat) : ((0 : Nat) % 2 ^ 8).testBit k = false := by
  simp [Nat.zero_testBit]

/-- The shadow pages covering the reservation of an alloc(size) whose
mmap returned base M are not yet in the shadow-page set: every shadow
byte address of the range that map_shadow_for_region computes for the
reservation — from the rounded-down shadow start to the rounded-up
shadow end — is outside the set.  Nothing is assumed about shadow pages
elsewhere, so this holds for any later allocation whose covering shadow
happens to be fresh, not only on a virgin allocator. -/
def covering_shadow_fresh (a : Allocator) (size M : Nat) : Prop :=
  ∀ x, a.round_down_to_page ((M >>> 3) + a.shadow_offset) ≤ x →
    x < a.round_up_to_page ((M + a.round_up_to_page size + 2 * a.page_size - M) / 8)
        + a.page_size + a.round_down_to_page ((M >>> 3) + a.shadow_offset) →
    a.shadow_pages x = false

/-- Shadow layout after alloc(size, _) with reservation base M when the
covering shadow pages are fresh (so the gap fill zero-initializes
exactly the covering shadow range): the user region [M + page,
M + page + size) is addressable, the leading guard page [M, M + page)
is unaddressable, the trailing region up to the reservation end is
unaddressable, and every shadow byte whose page was already mapped
(hence outside the fresh covering range) keeps its prior contents. -/
theorem alloc_shadow_layout (a : Allocator) (size M : Nat)
    (hp : a.page_size = 4096) (ho : a.shadow_offset = 1 <<< 36)
    (hfresh : covering_shadow_fresh a size M)
    (hM : M % 4096 = 0) (hs : size ≤ 2 ^ 60) :
    (∀ i, i < size →
        byte_addressable (a.alloc size 8 (some M)).1.shadow_mem (M + 4096 + i) = true) ∧
    (∀ A, M ≤ A → A < M + 4096 →
        byte_addressable (a.alloc size 8 (some M)).1.shadow_mem A = false) ∧
    (∀ A, M + 4096 + size ≤ A → A < M + (size / 4096 + 1) * 4096 + 2 * 4096 →
        byte_addressable (a.alloc size 8 (some M)).1.shadow_mem A = false) ∧
    (∀ x, a.shadow_pages x = true →
        (a.alloc size 8 (some M)).1.shadow_mem x = a.shadow_mem x) := by
  simp only [covering_shadow_fresh, Allocator.round_up_to_page,
    Allocator.round_down_to_page, hp, ho, usize_eq, shiftRight3_div,
    shiftLeft36_num] at hfresh
  refine ⟨fun i hi => ?_, fun A h1 h2 => ?_, fun A h1 h2 => ?_, fun x hx => ?_⟩
  · simp only [byte_addressable, SHADOW_OFFSET, alloc_shadow_mem_some,
      unpoison_bytes_apply, Allocator.round_up_to_page, Allocator.round_down_to_page,
      hp, ho, usize_eq, shiftRight3_div, shiftLeft36_num]
    split_ifs with h3 h4 h5
    · rw [tail_testBit (size % 8) (by omega) ((M + 4096 + i) % 8) (by omega)]
      simp only [decide_eq_true_eq]
      omega
    · exact byte255_testBit (7 - (M + 4096 + i) % 8) (by omega)
    · exfalso; omega
    · exfalso; omega
  · simp only [byte_addressable, SHADOW_OFFSET, alloc_shadow_mem_some,
      unpoison_bytes_apply, Allocator.round_up_to_page, Allocator.round_down_to_page,
      hp, ho, usize_eq, shiftRight3_div, shiftLeft36_num]
    split_ifs with h3 h4 h5
    · exfalso; omega
    · exfalso; omega
    · exact byte0_testBit _
    · exact absurd ⟨by omega, by omega, hfresh _ (by omega) (by omega)⟩ h5
  · simp only [byte_addressable, SHADOW_OFFSET, alloc_shadow_mem_some,
      unpoison_bytes_apply, Allocator.round_up_to_page, Allocator.round_down_to_page,
      hp, ho, usize_eq, shiftRight3_div, shiftLeft36_num]
    split_ifs with h3 h4 h5
    · rw [tail_testBit (size % 8) (by omega) (A % 8) (by omega)]
      exact decide_eq_false_iff_not.mpr (by omega)
    · exfalso; omega
    · exact byte0_testBit _
    · exact absurd ⟨by omega, by omega, hfresh _ (by omega) (by omega)⟩ h5
  · simp only [alloc_shadow_mem_some, unpoison_bytes_apply,
      Allocator.round_up_to_page, Allocator.round_down_to_page,
      hp, ho, usize_eq, shiftRight3_div, shiftLeft36_num]
    split_ifs with h3 h4 h5
    · have hf := hfresh x (by omega) (by omega)
      rw [hf] at hx
      exact Bool.noConfusion hx
    · have hf := hfresh x (by omega) (by omega)
      rw [hf] at hx
      exact Bool.noConfusion hx
    · rw [h5.2.2] at hx
      exact Bool.noConfusion hx
    · rfl

/-- State whose shadow pages are all already mapped and whose shadow
contents are all 0xff, as left behind by a prior unpoison-everything
pass over the region. -/
def c5_prior : Allocator :=
  { Allocator.new 4096 with
      shadow_pages := fun _ => true
      shadow_mem := fun _ => 0xff }

/-- Claim C5, counterexample: alloc(8, 8) over c5_prior returns user
pointer 8192 whose leading guard page starts at 4096, but the shadow of
the guard byte at 4096 still reads addressable (0xff) after the
allocation — alloc maps the shadow with unpoison = false and never
poisons already-mapped shadow pages, so the claimed postcondition fails
for pre-existing shadow contents. -/
theorem c5_counterexample :
    byte_addressable (c5_prior.alloc 8 8 (some 4096)).1.shadow_mem 4096 = true := by
  decide

/-- Claim C5 as amended: when the shadow pages covering the reservation
are not yet in the shadow-page set (they are freshly mapped and hence
zero-filled), alloc establishes the claimed layout — user region
addressable, leading guard page and reservation trailer unaddressable —
regardless of the prior shadow_mem contents; and every shadow byte
whose page was already mapped, necessarily outside the fresh covering
range, keeps its prior contents. -/
theorem c5_alloc_shadow_layout (a : Allocator) (size M : Nat)
    (hp : a.page_size = 4096) (ho : a.shadow_offset = 1 <<< 36)
    (hfresh : covering_shadow_fresh a size M)
    (hM : M % 4096 = 0) (hs : size ≤ 2 ^ 60) :
    (∀ i, i < size →
        byte_addressable (a.alloc size 8 (some M)).1.shadow_mem (M + 4096 + i) = true) ∧
    (∀ A, M ≤ A → A < M + 4096 →
        byte_addressable (a.alloc size 8 (some M)).1.shadow_mem A = false) ∧
    (∀ A, M + 4096 + size ≤ A → A < M + (size / 4096 + 1) * 4096 + 2 * 4096 →
        byte_addressable (a.alloc size 8 (some M)).1.shadow_mem A = false) ∧
    (∀ x, a.shadow_pages x = true →
        (a.alloc size 8 (some M)).1.shadow_mem x = a.shadow_mem x) :=
  alloc_shadow_layout a size M hp ho hfresh hM hs

/-- Witness for c5_alloc_shadow_layout: after malloc(5) on a fresh
allocator with reservation base 4096, the first user byte at 8192 is
addressable. -/
theorem c5_alloc_shadow_layout_witness :
    byte_addressable ((Allocator.new 4096).alloc 5 8 (some 4096)).1.shadow_mem
      (4096 + 4096 + 0) = true :=
  (c5_alloc_shadow_layout (Allocator.new 4096) 5 4096 rfl rfl (fun _ _ _ => rfl)
    rfl (by norm_num)).1 0 (by norm_num)

/-- State whose shadow pages are all already mapped and whose shadow
contents are all 0xff, as left behind by a prior unpoison-everything
pass over the region; used to refute claim C9's unconditional reading. -/
def c9_prior : Allocator :=
  { Allocator.new 4096 with
      shadow_pages := fun _ => true
      shadow_mem := fun _ => 0xff }

/-- Claim C9, counterexample: alloc(0, 8) over c9_prior returns pointer
8192, yet the byte at the returned pointer still queries addressable —
alloc(0) performs zero shadow writes (memset of 0/8 = 0 bytes, no
remainder), so over already-mapped unpoisoned shadow the claimed
access-validity-false-everywhere conclusion fails. -/
theorem c9_counterexample :
    (c9_prior.alloc 0 8 (some 4096)).2 = 8192 ∧
      byte_addressable (c9_prior.alloc 0 8 (some 4096)).1.shadow_mem 8192 = true := by
  constructor <;> decide

/-- Claim C9 as amended: when the OS mapping call succeeds and the
shadow pages covering the reservation are not already in the
shadow-page set (so the gap fill maps them fresh and zero-filled),
alloc(0, _) returns the non-null page-aligned pointer M + page, and the
shadow marks zero bytes addressable: every byte from the returned
pointer to the end of the reservation queries unaddressable. -/
theorem c9_alloc_zero_size (a : Allocator) (M : Nat)
    (hp : a.page_size = 4096) (ho : a.shadow_offset = 1 <<< 36)
    (hfresh : covering_shadow_fresh a 0 M) (hM : M % 4096 = 0) :
    (a.alloc 0 8 (some M)).2 = M + 4096 ∧
      0 < (a.alloc 0 8 (some M)).2 ∧
      (a.alloc 0 8 (some M)).2 % 4096 = 0 ∧
      (∀ A, (a.alloc 0 8 (some M)).2 ≤ A → A < M + 3 * 4096 →
        byte_addressable (a.alloc 0 8 (some M)).1.shadow_mem A = false) := by
  have hret : (a.alloc 0 8 (some M)).2 = M + a.page_size := rfl
  have hcore := alloc_shadow_layout a 0 M hp ho hfresh hM (by norm_num)
  refine ⟨by rw [hret, hp], by rw [hret, hp]; omega, by rw [hret, hp]; omega, ?_⟩
  intro A h1 h2
  rw [hret, hp] at h1
  exact hcore.2.2.1 A (by omega) (by omega)

/-- Witness for c9_alloc_zero_size: alloc(0) at reservation base 8192
returns 12288 and the byte at 12288 itself is unaddressable. -/
theorem c9_alloc_zero_size_witness :
    byte_addressable ((Allocator.new 4096).alloc 0 8 (some 8192)).1.shadow_mem
      12288 = false :=
  (c9_alloc_zero_size (Allocator.new 4096) 8192 rfl rfl (fun _ _ _ => rfl)
    rfl).2.2.2 12288 (by decide) (by decide)

end AsanModel
